import Mathlib

/-!
# Conway's Game of Life — verification of the simulation core and renderer layout

Shallow embedding of the repository's simulation engine (`GameOfLife` in
`src/js/game-of-life.js`) and the layout / coordinate mapping of the canvas
renderer (`CanvasRenderer` in the unnamed renderer source file), together with
proofs of the spec's testable properties.

Coordinates are modelled as `Int` (JS numbers used as integer indices; the
neighbor loop produces `x - 1` etc., which can be negative).  The two cell
buffers are `List Bool` in row-major order (`index = y * width + x`), exactly
as the flat JS arrays.  Fallible or guarded operations mirror the source's
bounds guards.
-/

/-- State of the simulation engine: `width`, `height`, `generation`,
`currentGrid`, `nextGrid`, as in the `GameOfLife` constructor.  The
constructor fills both buffers with `width * height` copies of `false`. -/
structure GameOfLife where
  width : Nat
  height : Nat
  generation : Nat
  currentGrid : List Bool
  nextGrid : List Bool
deriving Repr, DecidableEq

/-- `new GameOfLife(width, height)`: generation 0, both buffers all dead. -/
def GameOfLife.make (width height : Nat) : GameOfLife :=
  { width := width, height := height, generation := 0,
    currentGrid := List.replicate (width * height) false,
    nextGrid := List.replicate (width * height) false }

/-- Both buffers have the length `width * height` that the constructor
establishes and every operation preserves. -/
def WellFormed (g : GameOfLife) : Prop :=
  g.currentGrid.length = g.width * g.height ∧
  g.nextGrid.length = g.width * g.height

instance (g : GameOfLife) : Decidable (WellFormed g) := by
  unfold WellFormed; infer_instance

/-- `getIndex(x, y) = y * this.width + x` (row-major flat index). -/
def getIndex (g : GameOfLife) (x y : Int) : Int :=
  y * g.width + x

/-- `getCell(x, y)`: `false` outside `[0,width) × [0,height)`, else the
current buffer entry at the flat index. -/
def getCell (g : GameOfLife) (x y : Int) : Bool :=
  if x < 0 ∨ (g.width : Int) ≤ x ∨ y < 0 ∨ (g.height : Int) ≤ y then
    false
  else
    g.currentGrid.getD (getIndex g x y).toNat false

/-- `setCell(x, y, alive)`: writes the current buffer in place when the
coordinates are in bounds, otherwise a no-op. -/
def setCell (g : GameOfLife) (x y : Int) (alive : Bool) : GameOfLife :=
  if 0 ≤ x ∧ x < (g.width : Int) ∧ 0 ≤ y ∧ y < (g.height : Int) then
    { g with currentGrid := g.currentGrid.set (getIndex g x y).toNat alive }
  else g

/-- `toggleCell(x, y)`: flips the current-buffer entry when in bounds. -/
def toggleCell (g : GameOfLife) (x y : Int) : GameOfLife :=
  if 0 ≤ x ∧ x < (g.width : Int) ∧ 0 ≤ y ∧ y < (g.height : Int) then
    let index := (getIndex g x y).toNat
    { g with currentGrid := g.currentGrid.set index (!(g.currentGrid.getD index false)) }
  else g

/-- `countNeighbors(x, y)`: the source's `dy`/`dx` loops over
`{-1,0,1}²` minus `(0,0)`, unrolled in loop order; each live neighbor
(`getCell`, so out-of-bounds reads dead) contributes 1. -/
def countNeighbors (g : GameOfLife) (x y : Int) : Nat :=
  (getCell g (x - 1) (y - 1)).toNat + (getCell g x (y - 1)).toNat +
  (getCell g (x + 1) (y - 1)).toNat +
  (getCell g (x - 1) y).toNat + (getCell g (x + 1) y).toNat +
  (getCell g (x - 1) (y + 1)).toNat + (getCell g x (y + 1)).toNat +
  (getCell g (x + 1) (y + 1)).toNat

/-- The successor value the `step()` body writes at `(x, y)`:
live with 2 or 3 neighbors survives, dead with exactly 3 is born. -/
def stepCell (g : GameOfLife) (x y : Int) : Bool :=
  if getCell g x y then
    decide (countNeighbors g x y = 2 ∨ countNeighbors g x y = 3)
  else decide (countNeighbors g x y = 3)

/-- The full next buffer computed by `step()`'s double loop: the loop writes
`nextGrid[y*width+x]` for every `0 ≤ y < height`, `0 ≤ x < width`, i.e. entry
`i` of the buffer becomes the successor of cell `(i % width, i / width)`. -/
def computeNext (g : GameOfLife) : List Bool :=
  (List.range (g.width * g.height)).map
    (fun i => stepCell g ((i % g.width : Nat) : Int) ((i / g.width : Nat) : Int))

/-- `step()`: fill the next buffer from current-buffer reads only, swap the
two buffer references, increment the generation counter. -/
def step (g : GameOfLife) : GameOfLife :=
  { g with currentGrid := computeNext g, nextGrid := g.currentGrid,
           generation := g.generation + 1 }

/-- `clear()`: `currentGrid.fill(false)` (length preserved), generation 0. -/
def clear (g : GameOfLife) : GameOfLife :=
  { g with currentGrid := g.currentGrid.map (fun _ => false), generation := 0 }

/-- `randomize()`: each current-buffer entry is replaced by a fresh draw from
the random source (`Math.random() < 0.3`, modelled as an oracle of booleans
indexed by position), generation 0. -/
def randomize (g : GameOfLife) (draws : Nat → Bool) : GameOfLife :=
  { g with currentGrid := (List.range g.currentGrid.length).map draws,
           generation := 0 }

/-- `getPopulation()`: `reduce((count, cell) => count + (cell ? 1 : 0), 0)`. -/
def getPopulation (g : GameOfLife) : Nat :=
  g.currentGrid.foldl (fun count cell => count + if cell then 1 else 0) 0

/-- `getGeneration()`. -/
def getGeneration (g : GameOfLife) : Nat :=
  g.generation

/-- `getGridState()`: a copy of the current buffer (`[...this.currentGrid]`).
The aliasing discipline of the copy is modelled separately by the heap
semantics below. -/
def getGridState (g : GameOfLife) : List Bool :=
  g.currentGrid

/-- The `patterns` table inside `loadPattern`: four named boolean templates. -/
def patterns (pattern : String) : Option (List (List Nat)) :=
  if pattern = "glider" then
    some [[0, 1, 0],
          [0, 0, 1],
          [1, 1, 1]]
  else if pattern = "blinker" then
    some [[1, 1, 1]]
  else if pattern = "toad" then
    some [[0, 1, 1, 1],
          [1, 1, 1, 0]]
  else if pattern = "beacon" then
    some [[1, 1, 0, 0],
          [1, 1, 0, 0],
          [0, 0, 1, 1],
          [0, 0, 1, 1]]
  else none

/-- The stamping loops of `loadPattern`: for each row `y` and column `x` of
the template, entries equal to 1 are written with
`setCell(startX + x, startY + y, true)`. -/
def stampPattern (g : GameOfLife) (patternData : List (List Nat))
    (startX startY : Int) : GameOfLife :=
  patternData.enum.foldl
    (fun g1 row =>
      row.2.enum.foldl
        (fun g2 cell =>
          if cell.2 = 1 then
            setCell g2 (startX + (cell.1 : Int)) (startY + (row.1 : Int)) true
          else g2)
        g1)
    g

/-- `loadPattern(pattern, startX, startY)`: clears FIRST, then looks the name
up; an unknown name returns after the clear, a known one stamps its cells. -/
def loadPattern (g : GameOfLife) (pattern : String) (startX startY : Int) :
    GameOfLife :=
  let g1 := clear g
  match patterns pattern with
  | none => g1
  | some patternData => stampPattern g1 patternData startX startY

/-! ## Basic lemmas about the engine -/

theorem getCell_oob (g : GameOfLife) (x y : Int)
    (h : x < 0 ∨ (g.width : Int) ≤ x ∨ y < 0 ∨ (g.height : Int) ≤ y) :
    getCell g x y = false := by
  unfold getCell
  exact if_pos h

theorem setCell_oob (g : GameOfLife) (x y : Int) (alive : Bool)
    (h : x < 0 ∨ (g.width : Int) ≤ x ∨ y < 0 ∨ (g.height : Int) ≤ y) :
    setCell g x y alive = g := by
  have hn : ¬(0 ≤ x ∧ x < (g.width : Int) ∧ 0 ≤ y ∧ y < (g.height : Int)) := by
    omega
  unfold setCell
  rw [if_neg hn]

theorem toggleCell_oob (g : GameOfLife) (x y : Int)
    (h : x < 0 ∨ (g.width : Int) ≤ x ∨ y < 0 ∨ (g.height : Int) ≤ y) :
    toggleCell g x y = g := by
  have hn : ¬(0 ≤ x ∧ x < (g.width : Int) ∧ 0 ≤ y ∧ y < (g.height : Int)) := by
    omega
  unfold toggleCell
  rw [if_neg hn]

theorem foldl_count_all_false (l : List Bool) (n : Nat)
    (h : ∀ c ∈ l, c = false) :
    l.foldl (fun count cell => count + if cell then 1 else 0) n = n := by
  induction l generalizing n with
  | nil => rfl
  | cons hd tl ih =>
    have hhd : hd = false := h hd (List.mem_cons_self hd tl)
    have htl : ∀ c ∈ tl, c = false := fun c hc => h c (List.mem_cons_of_mem hd hc)
    simp [List.foldl_cons, hhd, ih n htl]

theorem getCell_clear (g : GameOfLife) (x y : Int) :
    getCell (clear g) x y = false := by
  unfold getCell clear getIndex
  split
  · rfl
  · set i := (y * (g.width : Int) + x).toNat with hidef
    rcases lt_or_ge i g.currentGrid.length with hi | hi
    · rw [List.getD_eq_getElem _ _ (by simpa using hi)]
      simp
    · rw [List.getD_eq_default _ _ (by simpa using hi)]

/-! ## Claim theorems: C3 (out-of-bounds), C6 (clear) -/

/-- C3: for coordinates outside `[0,width) × [0,height)`, `get` returns
`false`, and `set` (for either value) and `toggle` leave the engine state —
in particular every cell of the current field and the generation counter —
unchanged. -/
theorem oob_get_false_set_toggle_noop (g : GameOfLife) (x y : Int)
    (h : x < 0 ∨ (g.width : Int) ≤ x ∨ y < 0 ∨ (g.height : Int) ≤ y) :
    getCell g x y = false ∧
    (∀ alive : Bool, setCell g x y alive = g) ∧
    toggleCell g x y = g :=
  ⟨getCell_oob g x y h, fun alive => setCell_oob g x y alive h,
   toggleCell_oob g x y h⟩

/-- Witness for C3 at a concrete engine and coordinate. -/
theorem oob_get_false_set_toggle_noop_witness :
    ((-1 : Int) < 0 ∨ ((GameOfLife.make 2 2).width : Int) ≤ -1 ∨
      (0 : Int) < 0 ∨ ((GameOfLife.make 2 2).height : Int) ≤ 0) ∧
    (getCell (GameOfLife.make 2 2) (-1) 0 = false ∧
      (∀ alive : Bool, setCell (GameOfLife.make 2 2) (-1) 0 alive =
        GameOfLife.make 2 2) ∧
      toggleCell (GameOfLife.make 2 2) (-1) 0 = GameOfLife.make 2 2) :=
  ⟨by decide,
   oob_get_false_set_toggle_noop (GameOfLife.make 2 2) (-1) 0 (by decide)⟩

/-- C6: immediately after `clear()`, the population is 0 (every cell of the
current field is dead) and the generation counter is 0, whatever the state
before the call. -/
theorem clear_population_zero_generation_zero (g : GameOfLife) :
    getPopulation (clear g) = 0 ∧
    (∀ x y : Int, getCell (clear g) x y = false) ∧
    getGeneration (clear g) = 0 := by
  refine ⟨?_, fun x y => getCell_clear g x y, rfl⟩
  unfold getPopulation clear
  exact foldl_count_all_false _ 0 (by simp)

/-! ## Lemmas about `step` -/

theorem step_width (g : GameOfLife) : (step g).width = g.width := rfl

theorem step_height (g : GameOfLife) : (step g).height = g.height := rfl

theorem step_generation (g : GameOfLife) :
    (step g).generation = g.generation + 1 := rfl

theorem step_currentGrid (g : GameOfLife) :
    (step g).currentGrid = computeNext g := rfl

theorem computeNext_getD (g : GameOfLife) (i : Nat)
    (hi : i < g.width * g.height) :
    (computeNext g).getD i false =
      stepCell g ((i % g.width : Nat) : Int) ((i / g.width : Nat) : Int) := by
  unfold computeNext
  rw [List.getD_eq_getElem _ _ (by simpa using hi)]
  simp

theorem getCell_step (g : GameOfLife) (x y : Int)
    (hx0 : 0 ≤ x) (hxw : x < (g.width : Int))
    (hy0 : 0 ≤ y) (hyh : y < (g.height : Int)) :
    getCell (step g) x y = stepCell g x y := by
  unfold getCell getIndex
  rw [step_width, step_height, step_currentGrid]
  rw [if_neg (by omega :
    ¬(x < 0 ∨ (g.width : Int) ≤ x ∨ y < 0 ∨ (g.height : Int) ≤ y))]
  obtain ⟨nx, rfl⟩ : ∃ n : Nat, x = (n : Int) := ⟨x.toNat, by omega⟩
  obtain ⟨ny, rfl⟩ : ∃ n : Nat, y = (n : Int) := ⟨y.toNat, by omega⟩
  have hnx : nx < g.width := by exact_mod_cast hxw
  have hny : ny < g.height := by exact_mod_cast hyh
  have hw0 : 0 < g.width := by omega
  have hcast : ((ny : Int) * (g.width : Int) + (nx : Int)).toNat =
      ny * g.width + nx := by
    rw [← Nat.cast_mul, ← Nat.cast_add, Int.toNat_natCast]
  rw [hcast]
  have hlt : ny * g.width + nx < g.width * g.height := by
    calc ny * g.width + nx < ny * g.width + g.width := by omega
      _ = (ny + 1) * g.width := by ring
      _ ≤ g.height * g.width := Nat.mul_le_mul_right _ (by omega)
      _ = g.width * g.height := Nat.mul_comm _ _
  rw [computeNext_getD g _ hlt]
  have hmod : (ny * g.width + nx) % g.width = nx := by
    rw [Nat.mul_comm ny g.width, Nat.mul_add_mod, Nat.mod_eq_of_lt hnx]
  have hdiv : (ny * g.width + nx) / g.width = ny := by
    rw [Nat.mul_comm ny g.width, Nat.mul_add_div hw0,
      Nat.div_eq_of_lt hnx, Nat.add_zero]
  rw [hmod, hdiv]

/-! ## Claim theorem: C2 (B3/S23 rule with dead boundaries) -/

/-- C2: after one `step()`, each in-bounds cell holds the Conway B3/S23
successor of the pre-step field (neighbors counted by `countNeighbors`, with
out-of-bounds neighbors dead), and the generation counter grows by 1. -/
theorem step_follows_conway_rule (g : GameOfLife) (x y : Int)
    (hx0 : 0 ≤ x) (hxw : x < (g.width : Int))
    (hy0 : 0 ≤ y) (hyh : y < (g.height : Int)) :
    (getCell (step g) x y = true ↔
      ((getCell g x y = true ∧
          (countNeighbors g x y = 2 ∨ countNeighbors g x y = 3)) ∨
       (getCell g x y = false ∧ countNeighbors g x y = 3))) ∧
    (step g).generation = g.generation + 1 := by
  refine ⟨?_, rfl⟩
  rw [getCell_step g x y hx0 hxw hy0 hyh]
  unfold stepCell
  cases hc : getCell g x y <;> simp [hc]

/-- Witness for C2 on a 3×3 engine at cell (1,1). -/
theorem step_follows_conway_rule_witness :
    ((0 : Int) ≤ 1 ∧ (1 : Int) < ((GameOfLife.make 3 3).width : Int) ∧
      (0 : Int) ≤ 1 ∧ (1 : Int) < ((GameOfLife.make 3 3).height : Int)) ∧
    ((getCell (step (GameOfLife.make 3 3)) 1 1 = true ↔
      ((getCell (GameOfLife.make 3 3) 1 1 = true ∧
          (countNeighbors (GameOfLife.make 3 3) 1 1 = 2 ∨
           countNeighbors (GameOfLife.make 3 3) 1 1 = 3)) ∨
       (getCell (GameOfLife.make 3 3) 1 1 = false ∧
          countNeighbors (GameOfLife.make 3 3) 1 1 = 3))) ∧
     (step (GameOfLife.make 3 3)).generation =
       (GameOfLife.make 3 3).generation + 1) :=
  ⟨⟨by decide, by decide, by decide, by decide⟩,
   step_follows_conway_rule (GameOfLife.make 3 3) 1 1
     (by decide) (by decide) (by decide) (by decide)⟩

/-! ## Claim theorem: C10 (step reads only the current buffer) -/

/-- C10: two engines agreeing on width, height, generation and the current
field — but with arbitrary, possibly different, next-buffer contents —
produce equal current fields, populations and generation counters after one
`step()`. -/
theorem step_ignores_next_buffer (g1 g2 : GameOfLife)
    (hw : g1.width = g2.width) (hh : g1.height = g2.height)
    (hgen : g1.generation = g2.generation)
    (hcur : g1.currentGrid = g2.currentGrid) :
    (step g1).currentGrid = (step g2).currentGrid ∧
    getPopulation (step g1) = getPopulation (step g2) ∧
    (step g1).generation = (step g2).generation := by
  have hget : ∀ x y : Int, getCell g1 x y = getCell g2 x y := by
    intro x y
    unfold getCell getIndex
    rw [hw, hh, hcur]
  have hcnt : ∀ x y : Int, countNeighbors g1 x y = countNeighbors g2 x y := by
    intro x y
    unfold countNeighbors
    simp only [hget]
  have hsc : ∀ x y : Int, stepCell g1 x y = stepCell g2 x y := by
    intro x y
    unfold stepCell
    rw [hget, hcnt]
  have hnext : computeNext g1 = computeNext g2 := by
    unfold computeNext
    rw [hw, hh]
    congr 1
    funext i
    exact hsc _ _
  refine ⟨?_, ?_, ?_⟩
  · rw [step_currentGrid, step_currentGrid, hnext]
  · unfold getPopulation
    rw [step_currentGrid, step_currentGrid, hnext]
  · rw [step_generation, step_generation, hgen]

/-- Witness for C10: same current field, next buffers all-dead vs all-live. -/
theorem step_ignores_next_buffer_witness :
    ((GameOfLife.make 2 2).width =
        ({ GameOfLife.make 2 2 with
            nextGrid := [true, true, true, true] } : GameOfLife).width) ∧
    ((step (GameOfLife.make 2 2)).currentGrid =
      (step ({ GameOfLife.make 2 2 with
                nextGrid := [true, true, true, true] } : GameOfLife)).currentGrid ∧
     getPopulation (step (GameOfLife.make 2 2)) =
      getPopulation (step ({ GameOfLife.make 2 2 with
                nextGrid := [true, true, true, true] } : GameOfLife)) ∧
     (step (GameOfLife.make 2 2)).generation =
      (step ({ GameOfLife.make 2 2 with
                nextGrid := [true, true, true, true] } : GameOfLife)).generation) :=
  ⟨rfl,
   step_ignores_next_buffer _ _ rfl rfl rfl rfl⟩

/-! ## Flat-index arithmetic and `setCell` lemmas -/

theorem flat_mod (w ny nx : Nat) (hx : nx < w) : (ny * w + nx) % w = nx := by
  rw [Nat.mul_comm ny w, Nat.mul_add_mod, Nat.mod_eq_of_lt hx]

theorem flat_div (w ny nx : Nat) (hx : nx < w) : (ny * w + nx) / w = ny := by
  have hw0 : 0 < w := by omega
  rw [Nat.mul_comm ny w, Nat.mul_add_div hw0, Nat.div_eq_of_lt hx, Nat.add_zero]

theorem toNat_flatIndex (w : Nat) (x y : Int) (hx0 : 0 ≤ x) (hy0 : 0 ≤ y) :
    (y * (w : Int) + x).toNat = y.toNat * w + x.toNat := by
  obtain ⟨nx, rfl⟩ : ∃ n : Nat, x = (n : Int) := ⟨x.toNat, by omega⟩
  obtain ⟨ny, rfl⟩ : ∃ n : Nat, y = (n : Int) := ⟨y.toNat, by omega⟩
  rw [← Nat.cast_mul, ← Nat.cast_add, Int.toNat_natCast, Int.toNat_natCast,
    Int.toNat_natCast]

theorem toNat_flatIndex_lt (w h : Nat) (x y : Int)
    (hx0 : 0 ≤ x) (hxw : x < (w : Int)) (hy0 : 0 ≤ y) (hyh : y < (h : Int)) :
    (y * (w : Int) + x).toNat < w * h := by
  rw [toNat_flatIndex w x y hx0 hy0]
  have hnx : x.toNat < w := by omega
  have hny : y.toNat < h := by omega
  calc y.toNat * w + x.toNat < y.toNat * w + w := by omega
    _ = (y.toNat + 1) * w := by ring
    _ ≤ h * w := Nat.mul_le_mul_right _ (by omega)
    _ = w * h := Nat.mul_comm _ _

theorem flatIndex_toNat_inj (w : Nat) (x y u v : Int)
    (hx0 : 0 ≤ x) (hxw : x < (w : Int)) (hu0 : 0 ≤ u) (huw : u < (w : Int))
    (hy0 : 0 ≤ y) (hv0 : 0 ≤ v)
    (h : (y * (w : Int) + x).toNat = (v * (w : Int) + u).toNat) :
    x = u ∧ y = v := by
  rw [toNat_flatIndex w x y hx0 hy0, toNat_flatIndex w u v hu0 hv0] at h
  have hnx : x.toNat < w := by omega
  have hnu : u.toNat < w := by omega
  have hmod := congrArg (· % w) h
  simp only at hmod
  rw [flat_mod w y.toNat x.toNat hnx, flat_mod w v.toNat u.toNat hnu] at hmod
  have hdiv := congrArg (· / w) h
  simp only at hdiv
  rw [flat_div w y.toNat x.toNat hnx, flat_div w v.toNat u.toNat hnu] at hdiv
  omega

theorem getD_set_eq {α : Type} {d : α} (l : List α) (i : Nat) (a : α)
    (hi : i < l.length) :
    (l.set i a).getD i d = a := by
  rw [List.getD_eq_getElem _ _ (by simpa using hi)]
  simp [List.getElem_set]

theorem getD_set_ne {α : Type} {d : α} (l : List α) (i j : Nat) (a : α)
    (h : i ≠ j) :
    (l.set i a).getD j d = l.getD j d := by
  rcases lt_or_ge j l.length with hj | hj
  · rw [List.getD_eq_getElem _ _ (by simpa using hj),
      List.getD_eq_getElem _ _ hj]
    simp [List.getElem_set, h]
  · rw [List.getD_eq_default _ _ (by simpa using hj),
      List.getD_eq_default _ _ hj]

theorem clear_width (g : GameOfLife) : (clear g).width = g.width := rfl

theorem clear_height (g : GameOfLife) : (clear g).height = g.height := rfl

theorem clear_generation (g : GameOfLife) : (clear g).generation = 0 := rfl

theorem clear_wfC (g : GameOfLife)
    (hwf : g.currentGrid.length = g.width * g.height) :
    (clear g).currentGrid.length = (clear g).width * (clear g).height := by
  simp [clear, hwf]

theorem setCell_width (g : GameOfLife) (u v : Int) (a : Bool) :
    (setCell g u v a).width = g.width := by
  unfold setCell
  split <;> rfl

theorem setCell_height (g : GameOfLife) (u v : Int) (a : Bool) :
    (setCell g u v a).height = g.height := by
  unfold setCell
  split <;> rfl

theorem setCell_generation (g : GameOfLife) (u v : Int) (a : Bool) :
    (setCell g u v a).generation = g.generation := by
  unfold setCell
  split <;> rfl

theorem setCell_wfC (g : GameOfLife) (u v : Int) (a : Bool)
    (hwf : g.currentGrid.length = g.width * g.height) :
    (setCell g u v a).currentGrid.length =
      (setCell g u v a).width * (setCell g u v a).height := by
  unfold setCell
  split
  · simpa using hwf
  · exact hwf

theorem getCell_setCell (g : GameOfLife)
    (hwf : g.currentGrid.length = g.width * g.height)
    (u v x y : Int) (a : Bool) :
    getCell (setCell g u v a) x y =
      if x = u ∧ y = v ∧
          0 ≤ u ∧ u < (g.width : Int) ∧ 0 ≤ v ∧ v < (g.height : Int) then a
      else getCell g x y := by
  by_cases hin : 0 ≤ u ∧ u < (g.width : Int) ∧ 0 ≤ v ∧ v < (g.height : Int)
  case neg =>
    rw [setCell, if_neg hin, if_neg (by tauto)]
  case pos =>
    obtain ⟨hu0, huw, hv0, hvh⟩ := hin
    rw [setCell, if_pos ⟨hu0, huw, hv0, hvh⟩]
    by_cases hxy : x < 0 ∨ (g.width : Int) ≤ x ∨ y < 0 ∨ (g.height : Int) ≤ y
    · rw [if_neg (by rintro ⟨rfl, rfl, _⟩; omega)]
      unfold getCell getIndex
      rw [if_pos hxy, if_pos hxy]
    · have hx0 : 0 ≤ x := by omega
      have hxw : x < (g.width : Int) := by omega
      have hy0 : 0 ≤ y := by omega
      have hyh : y < (g.height : Int) := by omega
      unfold getCell getIndex
      rw [if_neg hxy, if_neg hxy]
      by_cases heq : x = u ∧ y = v
      · obtain ⟨rfl, rfl⟩ := heq
        rw [if_pos ⟨rfl, rfl, hu0, huw, hv0, hvh⟩]
        exact getD_set_eq _ _ _
          (by rw [hwf]; exact toNat_flatIndex_lt _ _ x y hx0 hxw hy0 hyh)
      · rw [if_neg (by tauto)]
        apply getD_set_ne
        intro hcontra
        exact heq (flatIndex_toNat_inj g.width x y u v hx0 hxw hu0 huw hy0 hv0
          hcontra.symm)

/-! ## Claim theorems: C1 (unknown pattern) and C4 (glider layout) -/

/-- C1 counterexample: `loadPattern` calls `clear()` BEFORE looking the name
up, so an unknown name wipes the field and resets the generation counter —
the state is NOT left unchanged.  Concretely, on a 1×1 engine at generation 5
with its only cell live, loading the unknown name "doesnotexist" kills the
cell and zeroes the generation. -/
theorem loadPattern_unknown_mutates_state :
    "doesnotexist" ≠ "glider" ∧ "doesnotexist" ≠ "blinker" ∧
    "doesnotexist" ≠ "toad" ∧ "doesnotexist" ≠ "beacon" ∧
    getCell { width := 1, height := 1, generation := 5,
              currentGrid := [true], nextGrid := [false] } 0 0 = true ∧
    getCell (loadPattern
        { width := 1, height := 1, generation := 5,
          currentGrid := [true], nextGrid := [false] } "doesnotexist" 0 0)
      0 0 = false ∧
    getGeneration (loadPattern
        { width := 1, height := 1, generation := 5,
          currentGrid := [true], nextGrid := [false] } "doesnotexist" 0 0) = 0 ∧
    getGeneration { width := 1, height := 1, generation := 5,
                    currentGrid := [true], nextGrid := [false] } = 5 := by
  decide

/-- C1 amended: `loadPattern` with a name that is none of the four built-in
templates never crashes and produces exactly the cleared state — the result
equals `clear()` of the prior state (all cells dead, generation 0); no
mutation beyond that initial clear happens.  (The original claim — that the
whole engine state is left unchanged — fails because the source clears the
field before checking the name.) -/
theorem loadPattern_unknown_equals_clear (g : GameOfLife) (name : String)
    (startX startY : Int)
    (h1 : name ≠ "glider") (h2 : name ≠ "blinker")
    (h3 : name ≠ "toad") (h4 : name ≠ "beacon") :
    loadPattern g name startX startY = clear g := by
  unfold loadPattern patterns
  rw [if_neg h1, if_neg h2, if_neg h3, if_neg h4]

/-- Witness for the amended C1 at a concrete engine and name. -/
theorem loadPattern_unknown_equals_clear_witness :
    ("doesnotexist" ≠ "glider" ∧ "doesnotexist" ≠ "blinker" ∧
     "doesnotexist" ≠ "toad" ∧ "doesnotexist" ≠ "beacon") ∧
    loadPattern { width := 1, height := 1, generation := 5,
                  currentGrid := [true], nextGrid := [false] }
        "doesnotexist" 0 0 =
      clear { width := 1, height := 1, generation := 5,
              currentGrid := [true], nextGrid := [false] } :=
  ⟨⟨by decide, by decide, by decide, by decide⟩,
   loadPattern_unknown_equals_clear _ "doesnotexist" 0 0
     (by decide) (by decide) (by decide) (by decide)⟩

theorem patterns_glider :
    patterns "glider" = some [[0, 1, 0], [0, 0, 1], [1, 1, 1]] := by
  decide

theorem glider_expand (g : GameOfLife) :
    loadPattern g "glider" 10 10 =
      setCell (setCell (setCell (setCell (setCell
        (clear g) 11 10 true) 12 11 true) 10 12 true) 11 12 true)
        12 12 true := by
  unfold loadPattern
  rw [patterns_glider]
  show stampPattern (clear g) [[0, 1, 0], [0, 0, 1], [1, 1, 1]] 10 10 = _
  simp [stampPattern, List.enum, List.enumFrom, List.foldl]

/-- C4: on any well-formed engine at least 13×13, `loadPattern("glider",10,10)`
makes exactly the five canonical glider cells at offset (10,10) live —
(11,10), (12,11), (10,12), (11,12), (12,12) — and every other cell dead,
whatever was live before. -/
theorem loadPattern_glider_exact (g : GameOfLife)
    (hwf : g.currentGrid.length = g.width * g.height)
    (hw : 13 ≤ g.width) (hh : 13 ≤ g.height) (x y : Int) :
    getCell (loadPattern g "glider" 10 10) x y = true ↔
      ((x = 11 ∧ y = 10) ∨ (x = 12 ∧ y = 11) ∨ (x = 10 ∧ y = 12) ∨
       (x = 11 ∧ y = 12) ∨ (x = 12 ∧ y = 12)) := by
  rw [glider_expand g]
  have hwf0 := clear_wfC g hwf
  have hwf1 := setCell_wfC (clear g) 11 10 true hwf0
  have hwf2 := setCell_wfC _ 12 11 true hwf1
  have hwf3 := setCell_wfC _ 10 12 true hwf2
  have hwf4 := setCell_wfC _ 11 12 true hwf3
  rw [getCell_setCell _ hwf4 12 12 x y true,
    getCell_setCell _ hwf3 11 12 x y true,
    getCell_setCell _ hwf2 10 12 x y true,
    getCell_setCell _ hwf1 12 11 x y true,
    getCell_setCell _ hwf0 11 10 x y true,
    getCell_clear g x y]
  simp only [setCell_width, setCell_height, clear_width, clear_height]
  split_ifs <;> simp_all <;> omega

/-- 13×13 engine with every cell live, used by the C4 witness. -/
def gliderDemo : GameOfLife :=
  { width := 13, height := 13, generation := 7,
    currentGrid := List.replicate 169 true,
    nextGrid := List.replicate 169 false }

theorem gliderDemo_wfC :
    gliderDemo.currentGrid.length = gliderDemo.width * gliderDemo.height := by
  rw [show gliderDemo.currentGrid = List.replicate 169 true from rfl,
    List.length_replicate]
  decide

/-- Witness for C4 on a 13×13 engine whose field starts all live. -/
theorem loadPattern_glider_exact_witness :
    (gliderDemo.currentGrid.length = gliderDemo.width * gliderDemo.height ∧
      13 ≤ gliderDemo.width ∧ 13 ≤ gliderDemo.height) ∧
    (getCell (loadPattern gliderDemo "glider" 10 10) 11 10 = true ↔
      (((11 : Int) = 11 ∧ (10 : Int) = 10) ∨ ((11 : Int) = 12 ∧ (10 : Int) = 11) ∨
       ((11 : Int) = 10 ∧ (10 : Int) = 12) ∨ ((11 : Int) = 11 ∧ (10 : Int) = 12) ∨
       ((11 : Int) = 12 ∧ (10 : Int) = 12))) :=
  ⟨⟨gliderDemo_wfC, by decide, by decide⟩,
   loadPattern_glider_exact gliderDemo gliderDemo_wfC
     (by decide) (by decide) 11 10⟩

/-! ## Claim theorem: C5 (blinker is a period-2 oscillator) -/

theorem cellFact (c : Bool) (q : Prop) (hc : c = true ↔ q) :
    c.toNat ≤ 1 ∧ (c.toNat = 1 ↔ q) := by
  cases c <;> simp_all

set_option maxHeartbeats 800000 in
theorem blinker_step_vertical (g : GameOfLife) (a b : Int)
    (ha1 : 1 ≤ a) (ha2 : a + 3 ≤ (g.width : Int) - 1)
    (hb1 : 1 ≤ b) (hb2 : b + 1 ≤ (g.height : Int) - 1)
    (hfield : ∀ u v : Int, getCell g u v = true ↔
      (v = b ∧ a ≤ u ∧ u ≤ a + 2)) :
    ∀ u v : Int, getCell (step g) u v = true ↔
      (u = a + 1 ∧ b - 1 ≤ v ∧ v ≤ b + 1) := by
  intro u v
  by_cases hub : 0 ≤ u ∧ u < (g.width : Int) ∧ 0 ≤ v ∧ v < (g.height : Int)
  · obtain ⟨hu0, huw, hv0, hvh⟩ := hub
    rw [getCell_step g u v hu0 huw hv0 hvh]
    unfold stepCell countNeighbors
    obtain ⟨du, rfl⟩ : ∃ t : Int, u = a + t := ⟨u - a, by ring⟩
    obtain ⟨dv, rfl⟩ : ∃ t : Int, v = b + t := ⟨v - b, by ring⟩
    have f1 := cellFact _ _ (hfield (a + du - 1) (b + dv - 1))
    have f2 := cellFact _ _ (hfield (a + du) (b + dv - 1))
    have f3 := cellFact _ _ (hfield (a + du + 1) (b + dv - 1))
    have f4 := cellFact _ _ (hfield (a + du - 1) (b + dv))
    have f5 := cellFact _ _ (hfield (a + du + 1) (b + dv))
    have f6 := cellFact _ _ (hfield (a + du - 1) (b + dv + 1))
    have f7 := cellFact _ _ (hfield (a + du) (b + dv + 1))
    have f8 := cellFact _ _ (hfield (a + du + 1) (b + dv + 1))
    generalize (getCell g (a + du - 1) (b + dv - 1)).toNat = n1 at f1 ⊢
    generalize (getCell g (a + du) (b + dv - 1)).toNat = n2 at f2 ⊢
    generalize (getCell g (a + du + 1) (b + dv - 1)).toNat = n3 at f3 ⊢
    generalize (getCell g (a + du - 1) (b + dv)).toNat = n4 at f4 ⊢
    generalize (getCell g (a + du + 1) (b + dv)).toNat = n5 at f5 ⊢
    generalize (getCell g (a + du - 1) (b + dv + 1)).toNat = n6 at f6 ⊢
    generalize (getCell g (a + du) (b + dv + 1)).toNat = n7 at f7 ⊢
    generalize (getCell g (a + du + 1) (b + dv + 1)).toNat = n8 at f8 ⊢
    by_cases hgc : getCell g (a + du) (b + dv) = true
    · rw [if_pos hgc, decide_eq_true_eq]
      have hq := (hfield _ _).1 hgc
      clear hfield hgc hu0 huw hv0 hvh ha1 ha2 hb1 hb2
      clear g
      by_cases hnear : -1 ≤ du ∧ du ≤ 3 ∧ -1 ≤ dv ∧ dv ≤ 1
      · obtain ⟨hm1, hm2, hm3, hm4⟩ := hnear
        interval_cases du <;> interval_cases dv <;> omega
      · clear f1 f2 f3 f4 f5 f6 f7 f8
        omega
    · rw [if_neg hgc, decide_eq_true_eq]
      have hq : ¬(b + dv = b ∧ a ≤ a + du ∧ a + du ≤ a + 2) := fun hp => hgc ((hfield _ _).2 hp)
      clear hfield hgc hu0 huw hv0 hvh ha1 ha2 hb1 hb2
      clear g
      by_cases hnear : -1 ≤ du ∧ du ≤ 3 ∧ -1 ≤ dv ∧ dv ≤ 1
      · obtain ⟨hm1, hm2, hm3, hm4⟩ := hnear
        interval_cases du <;> interval_cases dv <;> omega
      · have z1 : n1 = 0 := by clear f2 f3 f4 f5 f6 f7 f8; omega
        have z2 : n2 = 0 := by clear f1 f3 f4 f5 f6 f7 f8; omega
        have z3 : n3 = 0 := by clear f1 f2 f4 f5 f6 f7 f8; omega
        have z4 : n4 = 0 := by clear f1 f2 f3 f5 f6 f7 f8; omega
        have z5 : n5 = 0 := by clear f1 f2 f3 f4 f6 f7 f8; omega
        have z6 : n6 = 0 := by clear f1 f2 f3 f4 f5 f7 f8; omega
        have z7 : n7 = 0 := by clear f1 f2 f3 f4 f5 f6 f8; omega
        have z8 : n8 = 0 := by clear f1 f2 f3 f4 f5 f6 f7; omega
        clear f1 f2 f3 f4 f5 f6 f7 f8
        omega
  · have hoob : u < 0 ∨ ((step g).width : Int) ≤ u ∨ v < 0 ∨
        ((step g).height : Int) ≤ v := by
      rw [step_width, step_height]; omega
    rw [getCell_oob _ u v hoob]
    simp only [Bool.false_eq_true, false_iff]
    intro hq
    omega

set_option maxHeartbeats 800000 in
theorem blinker_step_horizontal (g : GameOfLife) (c d : Int)
    (hc1 : 1 ≤ c) (hc2 : c + 1 ≤ (g.width : Int) - 1)
    (hd1 : 1 ≤ d) (hd2 : d + 1 ≤ (g.height : Int) - 1)
    (hfield : ∀ u v : Int, getCell g u v = true ↔
      (u = c ∧ d - 1 ≤ v ∧ v ≤ d + 1)) :
    ∀ u v : Int, getCell (step g) u v = true ↔
      (v = d ∧ c - 1 ≤ u ∧ u ≤ c + 1) := by
  intro u v
  by_cases hub : 0 ≤ u ∧ u < (g.width : Int) ∧ 0 ≤ v ∧ v < (g.height : Int)
  · obtain ⟨hu0, huw, hv0, hvh⟩ := hub
    rw [getCell_step g u v hu0 huw hv0 hvh]
    unfold stepCell countNeighbors
    obtain ⟨du, rfl⟩ : ∃ t : Int, u = c + t := ⟨u - c, by ring⟩
    obtain ⟨dv, rfl⟩ : ∃ t : Int, v = d + t := ⟨v - d, by ring⟩
    have f1 := cellFact _ _ (hfield (c + du - 1) (d + dv - 1))
    have f2 := cellFact _ _ (hfield (c + du) (d + dv - 1))
    have f3 := cellFact _ _ (hfield (c + du + 1) (d + dv - 1))
    have f4 := cellFact _ _ (hfield (c + du - 1) (d + dv))
    have f5 := cellFact _ _ (hfield (c + du + 1) (d + dv))
    have f6 := cellFact _ _ (hfield (c + du - 1) (d + dv + 1))
    have f7 := cellFact _ _ (hfield (c + du) (d + dv + 1))
    have f8 := cellFact _ _ (hfield (c + du + 1) (d + dv + 1))
    generalize (getCell g (c + du - 1) (d + dv - 1)).toNat = n1 at f1 ⊢
    generalize (getCell g (c + du) (d + dv - 1)).toNat = n2 at f2 ⊢
    generalize (getCell g (c + du + 1) (d + dv - 1)).toNat = n3 at f3 ⊢
    generalize (getCell g (c + du - 1) (d + dv)).toNat = n4 at f4 ⊢
    generalize (getCell g (c + du + 1) (d + dv)).toNat = n5 at f5 ⊢
    generalize (getCell g (c + du - 1) (d + dv + 1)).toNat = n6 at f6 ⊢
    generalize (getCell g (c + du) (d + dv + 1)).toNat = n7 at f7 ⊢
    generalize (getCell g (c + du + 1) (d + dv + 1)).toNat = n8 at f8 ⊢
    by_cases hgc : getCell g (c + du) (d + dv) = true
    · rw [if_pos hgc, decide_eq_true_eq]
      have hq := (hfield _ _).1 hgc
      clear hfield hgc hu0 huw hv0 hvh hc1 hc2 hd1 hd2
      clear g
      by_cases hnear : -1 ≤ du ∧ du ≤ 1 ∧ -2 ≤ dv ∧ dv ≤ 2
      · obtain ⟨hm1, hm2, hm3, hm4⟩ := hnear
        interval_cases du <;> interval_cases dv <;> omega
      · clear f1 f2 f3 f4 f5 f6 f7 f8
        omega
    · rw [if_neg hgc, decide_eq_true_eq]
      have hq : ¬(c + du = c ∧ d - 1 ≤ d + dv ∧ d + dv ≤ d + 1) := fun hp => hgc ((hfield _ _).2 hp)
      clear hfield hgc hu0 huw hv0 hvh hc1 hc2 hd1 hd2
      clear g
      by_cases hnear : -1 ≤ du ∧ du ≤ 1 ∧ -2 ≤ dv ∧ dv ≤ 2
      · obtain ⟨hm1, hm2, hm3, hm4⟩ := hnear
        interval_cases du <;> interval_cases dv <;> omega
      · have z1 : n1 = 0 := by clear f2 f3 f4 f5 f6 f7 f8; omega
        have z2 : n2 = 0 := by clear f1 f3 f4 f5 f6 f7 f8; omega
        have z3 : n3 = 0 := by clear f1 f2 f4 f5 f6 f7 f8; omega
        have z4 : n4 = 0 := by clear f1 f2 f3 f5 f6 f7 f8; omega
        have z5 : n5 = 0 := by clear f1 f2 f3 f4 f6 f7 f8; omega
        have z6 : n6 = 0 := by clear f1 f2 f3 f4 f5 f7 f8; omega
        have z7 : n7 = 0 := by clear f1 f2 f3 f4 f5 f6 f8; omega
        have z8 : n8 = 0 := by clear f1 f2 f3 f4 f5 f6 f7; omega
        clear f1 f2 f3 f4 f5 f6 f7 f8
        omega
  · have hoob : u < 0 ∨ ((step g).width : Int) ≤ u ∨ v < 0 ∨
        ((step g).height : Int) ≤ v := by
      rw [step_width, step_height]; omega
    rw [getCell_oob _ u v hoob]
    simp only [Bool.false_eq_true, false_iff]
    intro hq
    omega

/-- C5: if the only live cells are a horizontal 3-cell blinker (cells
(a,b), (a+1,b), (a+2,b)) whose cells and Moore neighborhoods lie strictly
inside the grid, two `step()`s restore every cell to its original value and
add 2 to the generation counter. -/
theorem blinker_period_two (g : GameOfLife) (a b : Int)
    (ha1 : 1 ≤ a) (ha2 : a + 3 ≤ (g.width : Int) - 1)
    (hb1 : 1 ≤ b) (hb2 : b + 1 ≤ (g.height : Int) - 1)
    (hfield : ∀ u v : Int, getCell g u v = true ↔
      (v = b ∧ a ≤ u ∧ u ≤ a + 2)) :
    (∀ u v : Int, getCell (step (step g)) u v = getCell g u v) ∧
    (step (step g)).generation = g.generation + 2 := by
  have h1 := blinker_step_vertical g a b ha1 ha2 hb1 hb2 hfield
  have h2 := blinker_step_horizontal (step g) (a + 1) b
    (by omega) (by rw [step_width]; omega)
    (by omega) (by rw [step_height]; omega)
    (fun u v => h1 u v)
  refine ⟨fun u v => ?_, rfl⟩
  have hiff : getCell (step (step g)) u v = true ↔ getCell g u v = true := by
    rw [h2 u v, hfield u v]
    omega
  cases hx : getCell (step (step g)) u v <;> cases hy : getCell g u v <;>
    rw [hx, hy] at hiff <;> simp_all

/-- 5×3 engine whose current field is exactly a horizontal blinker at
(1,1)–(3,1), used by the C5 witness. -/
def blinkDemo : GameOfLife :=
  { width := 5, height := 3, generation := 3,
    currentGrid := [false, false, false, false, false,
                    false, true, true, true, false,
                    false, false, false, false, false],
    nextGrid := List.replicate 15 false }

theorem blinkDemo_field : ∀ u v : Int,
    getCell blinkDemo u v = true ↔ (v = 1 ∧ 1 ≤ u ∧ u ≤ 1 + 2) := by
  intro u v
  by_cases h : 0 ≤ u ∧ u < (5 : Int) ∧ 0 ≤ v ∧ v < (3 : Int)
  · obtain ⟨h1, h2, h3, h4⟩ := h
    interval_cases u <;> interval_cases v <;> decide
  · have hoob : u < 0 ∨ ((blinkDemo.width : Int)) ≤ u ∨ v < 0 ∨
        ((blinkDemo.height : Int)) ≤ v := by
      simp only [show blinkDemo.width = 5 from rfl,
        show blinkDemo.height = 3 from rfl]
      omega
    rw [getCell_oob _ u v hoob]
    simp only [Bool.false_eq_true, false_iff]
    intro hq
    omega

/-- Witness for C5 on the concrete 5×3 blinker engine. -/
theorem blinker_period_two_witness :
    ((1 : Int) ≤ 1 ∧ (1 : Int) + 3 ≤ ((blinkDemo.width : Int)) - 1 ∧
     (1 : Int) ≤ 1 ∧ (1 : Int) + 1 ≤ ((blinkDemo.height : Int)) - 1 ∧
     (∀ u v : Int, getCell blinkDemo u v = true ↔
        (v = 1 ∧ 1 ≤ u ∧ u ≤ 1 + 2))) ∧
    ((∀ u v : Int, getCell (step (step blinkDemo)) u v =
        getCell blinkDemo u v) ∧
     (step (step blinkDemo)).generation = blinkDemo.generation + 2) :=
  ⟨⟨by decide, by decide, by decide, by decide, blinkDemo_field⟩,
   blinker_period_two blinkDemo 1 1 (by decide) (by decide) (by decide)
     (by decide) blinkDemo_field⟩

/-! ## Claim theorem: C7 (snapshot is an independent copy)

JS objects hold their two buffers by reference and mutate them in place, so
the "independent copy" property of `getGridState()` is about aliasing.  We
model the reference discipline explicitly: a heap is a store of arrays,
engine state holds indices (references) of its two buffers, every mutating
operation writes through those references (computing the new contents with
the pure functions above), and `getGridState()` (`[...this.currentGrid]`)
allocates a fresh array holding a copy of the current buffer and returns a
reference to it. -/

/-- A store of boolean arrays; references are indices into it. -/
structure Heap where
  arrays : List (List Bool)

/-- Dereference (a dangling reference reads as an empty array). -/
def Heap.get (h : Heap) (r : Nat) : List Bool :=
  h.arrays.getD r []

/-- In-place overwrite of the array a reference designates. -/
def Heap.write (h : Heap) (r : Nat) (l : List Bool) : Heap :=
  ⟨h.arrays.set r l⟩

/-- Engine state at heap level: scalar fields plus the two buffer
references (`this.currentGrid` / `this.nextGrid`). -/
structure EngineRef where
  width : Nat
  height : Nat
  generation : Nat
  cur : Nat
  nxt : Nat

/-- Read the full engine value a reference state denotes. -/
def toGame (e : EngineRef) (h : Heap) : GameOfLife :=
  { width := e.width, height := e.height, generation := e.generation,
    currentGrid := h.get e.cur, nextGrid := h.get e.nxt }

/-- `getGridState()` at heap level: allocate a fresh array containing a copy
of the current buffer, return its reference and the grown heap. -/
def getGridStateH (e : EngineRef) (h : Heap) : Nat × Heap :=
  (h.arrays.length, ⟨h.arrays ++ [getGridState (toGame e h)]⟩)

/-- `setCell` at heap level: writes through the current-buffer reference. -/
def setCellH (e : EngineRef) (h : Heap) (x y : Int) (alive : Bool) :
    EngineRef × Heap :=
  (e, h.write e.cur ((setCell (toGame e h) x y alive).currentGrid))

/-- `toggleCell` at heap level. -/
def toggleCellH (e : EngineRef) (h : Heap) (x y : Int) : EngineRef × Heap :=
  (e, h.write e.cur ((toggleCell (toGame e h) x y).currentGrid))

/-- `clear()` at heap level: fills the current array in place, resets the
generation counter. -/
def clearH (e : EngineRef) (h : Heap) : EngineRef × Heap :=
  ({ e with generation := 0 },
   h.write e.cur ((clear (toGame e h)).currentGrid))

/-- `step()` at heap level: the next array is overwritten in place with the
computed successor field, then the two references are swapped and the
generation counter incremented. -/
def stepH (e : EngineRef) (h : Heap) : EngineRef × Heap :=
  ({ e with cur := e.nxt, nxt := e.cur, generation := e.generation + 1 },
   h.write e.nxt (computeNext (toGame e h)))

/-- `randomize()` at heap level. -/
def randomizeH (e : EngineRef) (h : Heap) (draws : Nat → Bool) :
    EngineRef × Heap :=
  ({ e with generation := 0 },
   h.write e.cur ((randomize (toGame e h) draws).currentGrid))

/-- `loadPattern` at heap level: every write (the clear fill and the stamped
cells) goes through the current-buffer reference. -/
def loadPatternH (e : EngineRef) (h : Heap) (pattern : String)
    (startX startY : Int) : EngineRef × Heap :=
  ({ e with generation := 0 },
   h.write e.cur ((loadPattern (toGame e h) pattern startX startY).currentGrid))

theorem getD_append_length {α : Type} (l : List α) (a d : α) :
    (l ++ [a]).getD l.length d = a := by
  rw [List.getD_eq_getElem _ _ (by simp)]
  simp

/-- C7: with valid buffer references, the reference returned by
`getGridState()` designates an array equal cell-for-cell to the current
field at the moment of the call, and each subsequent mutating operation —
`step`, `setCell`, `toggleCell`, `clear`, `randomize`, `loadPattern` —
leaves that snapshot array unchanged. -/
theorem snapshot_independent_copy (e : EngineRef) (h : Heap)
    (hcur : e.cur < h.arrays.length) (hnxt : e.nxt < h.arrays.length) :
    Heap.get (getGridStateH e h).2 (getGridStateH e h).1 =
      getGridState (toGame e h) ∧
    Heap.get (stepH e (getGridStateH e h).2).2 (getGridStateH e h).1 =
      Heap.get (getGridStateH e h).2 (getGridStateH e h).1 ∧
    (∀ (x y : Int) (alive : Bool),
      Heap.get (setCellH e (getGridStateH e h).2 x y alive).2
          (getGridStateH e h).1 =
        Heap.get (getGridStateH e h).2 (getGridStateH e h).1) ∧
    (∀ x y : Int,
      Heap.get (toggleCellH e (getGridStateH e h).2 x y).2
          (getGridStateH e h).1 =
        Heap.get (getGridStateH e h).2 (getGridStateH e h).1) ∧
    Heap.get (clearH e (getGridStateH e h).2).2 (getGridStateH e h).1 =
      Heap.get (getGridStateH e h).2 (getGridStateH e h).1 ∧
    (∀ draws : Nat → Bool,
      Heap.get (randomizeH e (getGridStateH e h).2 draws).2
          (getGridStateH e h).1 =
        Heap.get (getGridStateH e h).2 (getGridStateH e h).1) ∧
    (∀ (pattern : String) (startX startY : Int),
      Heap.get (loadPatternH e (getGridStateH e h).2 pattern startX startY).2
          (getGridStateH e h).1 =
        Heap.get (getGridStateH e h).2 (getGridStateH e h).1) := by
  have key : ∀ (i : Nat) (L : List Bool), i < h.arrays.length →
      Heap.get (Heap.write (getGridStateH e h).2 i L) (getGridStateH e h).1 =
        Heap.get (getGridStateH e h).2 (getGridStateH e h).1 := by
    intro i L hi
    unfold getGridStateH Heap.get Heap.write
    exact getD_set_ne _ i _ L (by omega)
  refine ⟨?_, key e.nxt _ hnxt, fun x y alive => key e.cur _ hcur,
    fun x y => key e.cur _ hcur, key e.cur _ hcur,
    fun draws => key e.cur _ hcur,
    fun pattern sx sy => key e.cur _ hcur⟩
  unfold getGridStateH Heap.get
  exact getD_append_length _ _ _

/-- Engine used by the C7 witness: 2×1 grid, heap slot 0 holds its current
buffer (one live cell), slot 1 its next buffer. -/
def snapDemoE : EngineRef :=
  { width := 2, height := 1, generation := 4, cur := 0, nxt := 1 }

/-- Heap used by the C7 witness. -/
def snapDemoH : Heap :=
  ⟨[[true, false], [false, false]]⟩

/-- Witness for C7 on the concrete engine and heap. -/
theorem snapshot_independent_copy_witness :
    (snapDemoE.cur < snapDemoH.arrays.length ∧
     snapDemoE.nxt < snapDemoH.arrays.length) ∧
    Heap.get (getGridStateH snapDemoE snapDemoH).2
        (getGridStateH snapDemoE snapDemoH).1 =
      getGridState (toGame snapDemoE snapDemoH) ∧
    Heap.get (stepH snapDemoE (getGridStateH snapDemoE snapDemoH).2).2
        (getGridStateH snapDemoE snapDemoH).1 =
      Heap.get (getGridStateH snapDemoE snapDemoH).2
        (getGridStateH snapDemoE snapDemoH).1 :=
  ⟨⟨by decide, by decide⟩,
   (snapshot_independent_copy snapDemoE snapDemoH (by decide) (by decide)).1,
   (snapshot_independent_copy snapDemoE snapDemoH (by decide) (by decide)).2.1⟩

/-! ## Renderer layout and coordinate mapping (`CanvasRenderer`)

`calculateCellSize` and `canvasToGrid` are pure functions of the surface
(logical) dimensions, the game dimensions, and the stored layout values;
we model them with the same names.  Surface pixel coordinates are JS
numbers, modelled as `ℚ` (pointer coordinates can be fractional under DPI
scaling); `Math.floor` of a real quotient is `Int.floor`, and the integer
cell-size computation uses `Int.fdiv` (floor division). -/

/-- The layout fields `calculateCellSize` assigns on the renderer. -/
structure Layout where
  cellSize : Int
  showGrid : Bool
  offsetX : Int
  offsetY : Int
deriving Repr, DecidableEq

/-- `calculateCellSize()`: cell size is
`min(floor(availW/gameWidth), floor(availH/gameHeight), 20)`, clamped up to
4 with grid lines forced off when below 4, otherwise grid lines shown iff
the size is at least 6; offsets center the grid
(`floor((avail - gridPixels) / 2)`). -/
def calculateCellSize (gameWidth gameHeight : Nat)
    (availableWidth availableHeight : Int) : Layout :=
  let maxCellWidth := Int.fdiv availableWidth gameWidth
  let maxCellHeight := Int.fdiv availableHeight gameHeight
  let cs := min (min maxCellWidth maxCellHeight) 20
  let cellSize := if cs < 4 then 4 else cs
  let showGrid := if cs < 4 then false else decide (6 ≤ cs)
  { cellSize := cellSize, showGrid := showGrid,
    offsetX := Int.fdiv (availableWidth - gameWidth * cellSize) 2,
    offsetY := Int.fdiv (availableHeight - gameHeight * cellSize) 2 }

/-- `canvasToGrid(canvasX, canvasY)`: subtract the bounding-rect origin and
the centering offset, divide by the cell size (floor), then clamp into
`[0, width-1] × [0, height-1]`. -/
def canvasToGrid (gameWidth gameHeight : Nat)
    (offsetX offsetY cellSize rectLeft rectTop : ℚ)
    (canvasX canvasY : ℚ) : Int × Int :=
  let x := Int.floor ((canvasX - rectLeft - offsetX) / cellSize)
  let y := Int.floor ((canvasY - rectTop - offsetY) / cellSize)
  (max 0 (min x ((gameWidth : Int) - 1)),
   max 0 (min y ((gameHeight : Int) - 1)))

/-! ## Claim theorems: C8 (clamped mapping) and C9 (cell-size bounds) -/

/-- C8: for any surface-pixel input — negative or beyond the surface —
`canvasToGrid` returns grid coordinates inside
`[0, width-1] × [0, height-1]` whenever the grid is at least 1×1. -/
theorem canvasToGrid_in_bounds (gameWidth gameHeight : Nat)
    (offsetX offsetY cellSize rectLeft rectTop canvasX canvasY : ℚ)
    (hgw : 1 ≤ gameWidth) (hgh : 1 ≤ gameHeight) :
    0 ≤ (canvasToGrid gameWidth gameHeight offsetX offsetY cellSize
          rectLeft rectTop canvasX canvasY).1 ∧
    (canvasToGrid gameWidth gameHeight offsetX offsetY cellSize
        rectLeft rectTop canvasX canvasY).1 ≤ (gameWidth : Int) - 1 ∧
    0 ≤ (canvasToGrid gameWidth gameHeight offsetX offsetY cellSize
          rectLeft rectTop canvasX canvasY).2 ∧
    (canvasToGrid gameWidth gameHeight offsetX offsetY cellSize
        rectLeft rectTop canvasX canvasY).2 ≤ (gameHeight : Int) - 1 := by
  unfold canvasToGrid
  refine ⟨?_, ?_, ?_, ?_⟩ <;> simp only [] <;> omega

/-- Witness for C8 at a 3×2 grid and an off-surface pointer position. -/
theorem canvasToGrid_in_bounds_witness :
    ((1 : Nat) ≤ 3 ∧ (1 : Nat) ≤ 2) ∧
    (0 ≤ (canvasToGrid 3 2 0 0 10 0 0 (-50) 1000).1 ∧
     (canvasToGrid 3 2 0 0 10 0 0 (-50) 1000).1 ≤ (3 : Int) - 1 ∧
     0 ≤ (canvasToGrid 3 2 0 0 10 0 0 (-50) 1000).2 ∧
     (canvasToGrid 3 2 0 0 10 0 0 (-50) 1000).2 ≤ (2 : Int) - 1) :=
  ⟨⟨by decide, by decide⟩,
   by
    have h := canvasToGrid_in_bounds 3 2 0 0 10 0 0 (-50) 1000
      (by decide) (by decide)
    exact ⟨h.1, h.2.1, h.2.2.1, h.2.2.2⟩⟩

/-- C9: for any surface dimensions and any grid at least 1×1,
`calculateCellSize` yields a cell size in `[4, 20]`; whenever the result is
below 6 the grid-line flag is off; and whenever the unclamped size
`min(floor(availW/gw), floor(availH/gh), 20)` is at least 4, the flag is on
iff the cell size is at least 6. -/
theorem calculateCellSize_bounds (gameWidth gameHeight : Nat)
    (availableWidth availableHeight : Int)
    (hgw : 1 ≤ gameWidth) (hgh : 1 ≤ gameHeight) :
    (4 ≤ (calculateCellSize gameWidth gameHeight availableWidth
            availableHeight).cellSize ∧
     (calculateCellSize gameWidth gameHeight availableWidth
         availableHeight).cellSize ≤ 20) ∧
    ((calculateCellSize gameWidth gameHeight availableWidth
        availableHeight).cellSize < 6 →
      (calculateCellSize gameWidth gameHeight availableWidth
          availableHeight).showGrid = false) ∧
    (4 ≤ min (min (Int.fdiv availableWidth gameWidth)
            (Int.fdiv availableHeight gameHeight)) 20 →
      ((calculateCellSize gameWidth gameHeight availableWidth
          availableHeight).showGrid = true ↔
        6 ≤ (calculateCellSize gameWidth gameHeight availableWidth
              availableHeight).cellSize)) := by
  simp only [calculateCellSize]
  split_ifs with hlt
  · refine ⟨⟨by omega, by omega⟩, fun _ => rfl, fun hge => absurd hge (by omega)⟩
  · refine ⟨⟨by omega, by omega⟩, fun h6 => ?_, fun hge => ?_⟩
    · simp only [decide_eq_false_iff_not]
      omega
    · simp only [decide_eq_true_eq]

/-- Witness for C9 on a 10×10 grid in an 83×47 surface. -/
theorem calculateCellSize_bounds_witness :
    ((1 : Nat) ≤ 10 ∧ (1 : Nat) ≤ 10) ∧
    ((4 ≤ (calculateCellSize 10 10 83 47).cellSize ∧
      (calculateCellSize 10 10 83 47).cellSize ≤ 20) ∧
     ((calculateCellSize 10 10 83 47).cellSize < 6 →
       (calculateCellSize 10 10 83 47).showGrid = false) ∧
     (4 ≤ min (min (Int.fdiv 83 10) (Int.fdiv 47 10)) 20 →
       ((calculateCellSize 10 10 83 47).showGrid = true ↔
         6 ≤ (calculateCellSize 10 10 83 47).cellSize))) :=
  ⟨⟨by decide, by decide⟩,
   calculateCellSize_bounds 10 10 83 47 (by decide) (by decide)⟩
